import Mathlib

/-!
Verification of the kube-openapi CEL validation-rule subsystem: the
schema-to-declaration builder, the rule compiler (`Compile`, `CompileCel`,
`newCelExpressionValidator`) and the rule evaluator
(`celExpressionValidator.Validate`), shallowly embedded from the Go sources.
The external cel-go expression engine (parser, type checker, program
factory) is out of scope of the repository and is modelled as an abstract
oracle (`CelEngine`); the forked celopenapi model package
(`NewRuleTypes`, `EnvOptions`, `FindDeclType`, `SchemaDeclType`) is part of
the repository but not present in the sources, so it is modelled from the
specification where noted.
-/

/-- A single rule of the x-kubernetes-validator schema extension: an
expression plus a human-readable failure message (Go struct `CelRule`). -/
structure CelRule where
  rule : String
  message : String
  deriving DecidableEq

/-- Engine-facing type declarations: the four engine scalars
(`decls.String` is CEL text, `decls.Int` is 64-bit signed, `decls.Bool`,
`decls.Double`) plus object, list and map shapes, mirroring the forked
celopenapi model `DeclType`.  An object carries its field declarations;
a map carries only its value type (its field list is empty, as in the
model package). -/
inductive DeclType where
  | string : DeclType
  | int : DeclType
  | bool : DeclType
  | double : DeclType
  | object (fields : List (String × DeclType)) : DeclType
  | list (elem : DeclType) : DeclType
  | map (elem : DeclType) : DeclType

def DeclType.isObject : DeclType → Bool
  | .object _ => true
  | _ => false

def DeclType.isMap : DeclType → Bool
  | .map _ => true
  | _ => false

def DeclType.isList : DeclType → Bool
  | .list _ => true
  | _ => false

/-- The field declarations of an object declaration (`root.Fields`); empty
for every other shape, as in the celopenapi model. -/
def DeclType.fields : DeclType → List (String × DeclType)
  | .object fs => fs
  | _ => []

/-- The part of `spec.Schema` the CEL compiler reads: the `Type` string
list, the string `Format`, the `Properties` map, the `Items` element schema
and the value schema of map-style `AdditionalProperties`. -/
inductive Schema where
  | mk (type : List String) (format : String)
      (properties : List (String × Schema))
      (items : Option Schema)
      (additionalProperties : Option Schema) : Schema

def Schema.type : Schema → List String
  | .mk t _ _ _ _ => t

def Schema.format : Schema → String
  | .mk _ f _ _ _ => f

def Schema.properties : Schema → List (String × Schema)
  | .mk _ _ p _ _ => p

def Schema.items : Schema → Option Schema
  | .mk _ _ _ i _ => i

def Schema.additionalProperties : Schema → Option Schema
  | .mk _ _ _ _ a => a

mutual

/-- Modelled from the spec: the Declaration Builder
(`celmodel.SchemaDeclType` of the forked celopenapi model, not under the
sources).  It walks a schema node recursively: an object with a map-style
catch-all becomes a map declaration over the value declaration, a plain
object becomes an object declaration with one recursively built entry per
property, an array becomes a list declaration over its element, the four
scalar kinds map directly to the matching engine scalar (a string with
byte format stays the same textual scalar type), and any other shape is
reported as unmappable (`none`) rather than guessed. -/
def SchemaDeclType : Schema → Option DeclType
  | .mk ty _ props items addl =>
    if ty.contains "object" then
      match addl with
      | some v => (SchemaDeclType v).map DeclType.map
      | none => (schemaFieldDecls props).map DeclType.object
    else if ty.contains "array" then
      match items with
      | some el => (SchemaDeclType el).map DeclType.list
      | none => none
    else if ty.contains "string" then some .string
    else if ty.contains "integer" then some .int
    else if ty.contains "boolean" then some .bool
    else if ty.contains "number" then some .double
    else none

/-- Modelled from the spec: recursively built child declarations, one per
property of an object schema; fails when any child is unmappable. -/
def schemaFieldDecls : List (String × Schema) → Option (List (String × DeclType))
  | [] => some []
  | (k, s) :: rest =>
    match SchemaDeclType s, schemaFieldDecls rest with
    | some t, some ts => some ((k, t) :: ts)
    | _, _ => none

end

/-- An AST handed back by the engine compiler (`cel.Ast`, opaque). -/
structure Ast where
  expr : String
  deriving DecidableEq

/-- A compiled program (`cel.Program`, opaque to the compiler). -/
structure Program where
  ast : Ast
  deriving DecidableEq

/-- Outcome of `env.Compile(text)`: either non-nil issues carrying a
human-readable diagnostic, or an AST. -/
inductive CompileResult where
  | issues (diag : String)
  | ast (a : Ast)
  deriving DecidableEq

/-- The environment assembled before the compile loop: the declared
variables (name, declared type) in declaration order, and whether the
string-manipulation (`celext.Strings`) and encoding (`celext.Encoders`)
extension libraries were installed. -/
structure BuiltEnv where
  vars : List (String × DeclType)
  stringsExt : Bool
  encodersExt : Bool

/-- The external cel-go engine as consumed by the compiler, a black box
per the spec: `check` is `env.Compile`, `mkProgram` is `env.Program`, and
the three error knobs model the failure of the external constructors
`cel.NewEnv(opts...)`, `rt.EnvOptions(...)` and `env.Extend(opts...)`
(each returns an error the Go code checks). -/
structure CelEngine where
  check : BuiltEnv → String → CompileResult
  mkProgram : BuiltEnv → Ast → Except String Program
  newEnvErr : Option String
  envOptionsErr : Option String
  extendErr : Option String

/-- Structured error values of the compiler, one constructor per
`fmt.Errorf` site (or raw error return) in the Go sources. -/
inductive CelError where
  | notSupportedType (t : String)
  | envInit (diag : String)
  | ruleTypesError (diag : String)
  | envOptionsError (diag : String)
  | unsupportedType
  | extendError (diag : String)
  | compilationFailed (message diag : String)
  | programInstantiationFailed (message diag : String)
  | ruleNotSpecified (message : String)
  deriving DecidableEq

namespace cel

/-- Go: `if len(rootName) == 0 { rootName = "self" }` at the top of
`Compile` (src/pkg/util/cel/cel_compilation.go lines 41-43). -/
def defaultedName (rootName : String) : String :=
  if rootName.length = 0 then "self" else rootName

/-- The guard of the scalar branch of `Compile` (line 47):
`schema.Type.Contains("string") || Contains("integer") ||
Contains("boolean") || Contains("number")`. -/
def usesScalarBranch (schema : Schema) : Bool :=
  schema.type.contains "string" || schema.type.contains "integer"
    || schema.type.contains "boolean" || schema.type.contains "number"

/-- The `switch schema.Type[0]` of the scalar branch (lines 48-60): the
four supported scalar kinds map to the engine scalars `decls.String`
(text), `decls.Int` (64-bit signed), `decls.Bool` and `decls.Double`;
any other head falls to the `default` case (`none` here), reported as
"not supported for type". -/
def scalarExprType (t : String) : Option DeclType :=
  if t = "string" then some DeclType.string
  else if t = "integer" then some DeclType.int
  else if t = "boolean" then some DeclType.bool
  else if t = "number" then some DeclType.double
  else none

/-- Go: `env, err = env.Extend(opts...)` plus its error check (lines
96-100): on success the environment declares exactly the accumulated
declarations; no extension library is installed on this path. -/
def extendEnv (eng : CelEngine) (vars : List (String × DeclType)) :
    Except CelError BuiltEnv :=
  match eng.extendErr with
  | some e => Except.error (CelError.extendError e)
  | none => Except.ok ⟨vars, false, false⟩

/-- The environment-assembly phase of `Compile`
(src/pkg/util/cel/cel_compilation.go lines 44-101), with the scope name
already defaulted.  Scalar branch: declare only the scope variable at
its engine scalar type and install the `celext.Strings` and
`celext.Encoders` extension libraries.  Otherwise: build the root
declaration (`celmodel.NewRuleTypes`, which fails exactly when the
schema is unmappable), obtain the engine options; `rt.EnvOptions` and
`rt.FindDeclType` live in the forked celopenapi model, not under the
sources, and are modelled from the spec: `EnvOptions` registers the
scoped-value reference, declaring the scope variable bound to the root
declaration, and `FindDeclType(rootName)` finds the registered root.
An object or map root then contributes one variable per field of the
root declaration (a map declaration has no fields); a list root
contributes nothing (empty branch, line 88-89); any other declaration
is rejected with the error "unsupported type" (line 91). -/
def compileEnvNamed (eng : CelEngine) (schema : Schema) (rootName : String) :
    Except CelError BuiltEnv :=
  if usesScalarBranch schema then
    match schema.type.head? with
    | none => Except.error (CelError.notSupportedType "")
    | some t =>
      match scalarExprType t with
      | none => Except.error (CelError.notSupportedType t)
      | some ty =>
        match eng.newEnvErr with
        | some e => Except.error (CelError.envInit e)
        | none => Except.ok ⟨[(rootName, ty)], true, true⟩
  else
    match SchemaDeclType schema with
    | none => Except.error (CelError.ruleTypesError "unsupported schema")
    | some root =>
      match eng.envOptionsErr with
      | some e => Except.error (CelError.envOptionsError e)
      | none =>
        if root.isObject || root.isMap then
          extendEnv eng ((rootName, root) :: root.fields)
        else if root.isList then
          extendEnv eng [(rootName, root)]
        else Except.error CelError.unsupportedType

/-- Environment assembly of `Compile` with the Go scope-name default
applied (empty name becomes "self"). -/
def compileEnv (eng : CelEngine) (schema : Schema) (rootName : String) :
    Except CelError BuiltEnv :=
  compileEnvNamed eng schema (defaultedName rootName)

/-- The compile loop of `Compile` (lines 103-116): for each rule in
input order submit the expression to `env.Compile`; on issues record
"compilation failed for rule: (message) with message: (diagnostic)" and
leave the program slot nil; otherwise call `env.Program`; on error
record "program instantiation failed ..."; otherwise store the program
at the same index.  The loop never stops early. -/
def compileRules (eng : CelEngine) (env : BuiltEnv) :
    List CelRule → List (Option Program) × List CelError
  | [] => ([], [])
  | r :: rest =>
    let acc := compileRules eng env rest
    match eng.check env r.rule with
    | .issues diag =>
      (none :: acc.1, CelError.compilationFailed r.message diag :: acc.2)
    | .ast a =>
      match eng.mkProgram env a with
      | .error diag =>
        (none :: acc.1, CelError.programInstantiationFailed r.message diag :: acc.2)
      | .ok p => (some p :: acc.1, acc.2)

/-- `Compile` (src/pkg/util/cel/cel_compilation.go lines 40-119):
assemble the environment (any setup failure is returned as the sole
collected error, with no program slice), then run the compile loop over
all rules, returning the index-aligned program slice together with all
collected errors. -/
def Compile (eng : CelEngine) (schema : Schema) (celRules : List CelRule)
    (rootName : String) : Option (List (Option Program)) × List CelError :=
  match compileEnv eng schema rootName with
  | .error e => (none, [e])
  | .ok env =>
    let res := compileRules eng env celRules
    (some res.1, res.2)

/-- The program the compile loop stores for one rule: present exactly
when both engine stages succeed for that rule alone. -/
def ruleProgram (eng : CelEngine) (env : BuiltEnv) (r : CelRule) : Option Program :=
  match eng.check env r.rule with
  | .issues _ => none
  | .ast a =>
    match eng.mkProgram env a with
    | .error _ => none
    | .ok p => some p

/-- The error the compile loop records for one rule: the compile error
naming the rule's message and the compiler diagnostic, the program
instantiation error likewise, or nothing on success. -/
def ruleError (eng : CelEngine) (env : BuiltEnv) (r : CelRule) : Option CelError :=
  match eng.check env r.rule with
  | .issues diag => some (CelError.compilationFailed r.message diag)
  | .ast a =>
    match eng.mkProgram env a with
    | .error diag => some (CelError.programInstantiationFailed r.message diag)
    | .ok _ => none

theorem compileRules_eq (eng : CelEngine) (env : BuiltEnv) (rules : List CelRule) :
    compileRules eng env rules =
      (rules.map (ruleProgram eng env), rules.filterMap (ruleError eng env)) := by
  induction rules with
  | nil => rfl
  | cons r rest ih =>
    simp only [compileRules, ih, List.map_cons, List.filterMap_cons]
    cases h1 : eng.check env r.rule with
    | issues diag => simp [ruleProgram, ruleError, h1]
    | ast a =>
      cases h2 : eng.mkProgram env a with
      | error diag => simp [ruleProgram, ruleError, h1, h2]
      | ok p => simp [ruleProgram, ruleError, h1, h2]

end cel

namespace cel

theorem ruleProgram_eq_none_of_ruleError (eng : CelEngine) (env : BuiltEnv)
    (r : CelRule) (h : ruleError eng env r ≠ none) :
    ruleProgram eng env r = none := by
  unfold ruleError ruleProgram at *
  cases h1 : eng.check env r.rule with
  | issues diag => rfl
  | ast a =>
    cases h2 : eng.mkProgram env a with
    | error diag => simp [h2]
    | ok p => simp [h1, h2] at h

/-- C1: for every schema whose declaration environment is built
successfully and every rule list, the compile loop of `Compile` records,
for a rule whose engine compilation fails, an error naming the rule's
message together with the compiler diagnostic; it continues with the
remaining rules (the program slot of every index is determined by that
index's rule alone); and it returns the list of all per-rule errors
collected across all rules. -/
theorem compile_aggregates_all_errors (eng : CelEngine) (schema : Schema)
    (rules : List CelRule) (rootName : String) (env : BuiltEnv)
    (h : compileEnv eng schema rootName = Except.ok env) :
    (Compile eng schema rules rootName).2 = rules.filterMap (ruleError eng env) ∧
    (∀ r diag, r ∈ rules → eng.check env r.rule = CompileResult.issues diag →
      ruleError eng env r = some (CelError.compilationFailed r.message diag)) ∧
    ∀ progs, (Compile eng schema rules rootName).1 = some progs →
      ∀ i (hi : i < rules.length),
        progs[i]? = some (ruleProgram eng env (rules.get ⟨i, hi⟩)) := by
  have hC : Compile eng schema rules rootName
      = (some (rules.map (ruleProgram eng env)),
          rules.filterMap (ruleError eng env)) := by
    simp only [Compile, h, compileRules_eq]
  refine ⟨by rw [hC], ?_, ?_⟩
  · intro r diag _ hcheck
    unfold ruleError
    rw [hcheck]
  · intro progs hprogs i hi
    rw [hC] at hprogs
    simp only [Option.some.injEq] at hprogs
    subst hprogs
    simp [List.getElem?_map, List.getElem?_eq_getElem, hi, List.get_eq_getElem]

/-- C2: for every schema whose declaration environment is built
successfully and every list of N rules, `Compile` returns a program
slice of length exactly N in which index i holds the program compiled
from rule i, and every index whose rule failed holds the nil sentinel
rather than being removed. -/
theorem compile_programs_index_aligned (eng : CelEngine) (schema : Schema)
    (rules : List CelRule) (rootName : String) (env : BuiltEnv)
    (h : compileEnv eng schema rootName = Except.ok env) :
    ∃ progs, (Compile eng schema rules rootName).1 = some progs ∧
      progs.length = rules.length ∧
      (∀ i (hi : i < rules.length),
        progs[i]? = some (ruleProgram eng env (rules.get ⟨i, hi⟩))) ∧
      ∀ i (hi : i < rules.length),
        ruleError eng env (rules.get ⟨i, hi⟩) ≠ none → progs[i]? = some none := by
  have hC : Compile eng schema rules rootName
      = (some (rules.map (ruleProgram eng env)),
          rules.filterMap (ruleError eng env)) := by
    simp only [Compile, h, compileRules_eq]
  refine ⟨rules.map (ruleProgram eng env), by rw [hC], by simp, ?_, ?_⟩
  · intro i hi
    simp [List.getElem?_map, List.getElem?_eq_getElem, hi, List.get_eq_getElem]
  · intro i hi herr
    rw [List.get_eq_getElem] at herr
    simp [List.getElem?_map, List.getElem?_eq_getElem, hi,
      ruleProgram_eq_none_of_ruleError eng env _ herr]

end cel

/-- A concrete engine for witnesses: the expression "bad" fails the
type check with a fixed diagnostic, every other expression compiles and
instantiates. -/
def engW : CelEngine where
  check := fun _ s =>
    if s = "bad" then CompileResult.issues "undeclared reference"
    else CompileResult.ast ⟨s⟩
  mkProgram := fun _ a => Except.ok ⟨a⟩
  newEnvErr := none
  envOptionsErr := none
  extendErr := none

/-- The minReplicas/maxReplicas object schema used throughout the repo
tests. -/
def schemaObjW : Schema :=
  .mk ["object"] ""
    [("minReplicas", .mk ["integer"] "" [] none none),
     ("maxReplicas", .mk ["integer"] "" [] none none)]
    none none

/-- The root declaration built from `schemaObjW`. -/
def rootObjW : DeclType :=
  .object [("minReplicas", .int), ("maxReplicas", .int)]

/-- The environment `Compile` assembles for `schemaObjW` with the scope
name defaulted to "self". -/
def envObjW : BuiltEnv :=
  ⟨[("self", rootObjW), ("minReplicas", .int), ("maxReplicas", .int)], false, false⟩

/-- Three rules, the middle one failing to compile. -/
def rulesW : List CelRule :=
  [⟨"minReplicas < maxReplicas", "m1"⟩, ⟨"bad", "m2"⟩, ⟨"self == self", "m3"⟩]

/-- Witness for C1 at a concrete schema, engine and rule list whose
middle rule fails: the environment builds and the conclusion holds. -/
theorem compile_aggregates_all_errors_witness :
    cel.compileEnv engW schemaObjW "" = Except.ok envObjW ∧
    ((cel.Compile engW schemaObjW rulesW "").2 =
        rulesW.filterMap (cel.ruleError engW envObjW) ∧
      (∀ r diag, r ∈ rulesW →
        engW.check envObjW r.rule = CompileResult.issues diag →
        cel.ruleError engW envObjW r =
          some (CelError.compilationFailed r.message diag)) ∧
      ∀ progs, (cel.Compile engW schemaObjW rulesW "").1 = some progs →
        ∀ i (hi : i < rulesW.length),
          progs[i]? = some (cel.ruleProgram engW envObjW (rulesW.get ⟨i, hi⟩))) :=
  ⟨rfl, cel.compile_aggregates_all_errors engW schemaObjW rulesW "" envObjW rfl⟩

/-- Witness for C2 at the same concrete compile failure scenario. -/
theorem compile_programs_index_aligned_witness :
    cel.compileEnv engW schemaObjW "" = Except.ok envObjW ∧
    (∃ progs, (cel.Compile engW schemaObjW rulesW "").1 = some progs ∧
      progs.length = rulesW.length ∧
      (∀ i (hi : i < rulesW.length),
        progs[i]? = some (cel.ruleProgram engW envObjW (rulesW.get ⟨i, hi⟩))) ∧
      ∀ i (hi : i < rulesW.length),
        cel.ruleError engW envObjW (rulesW.get ⟨i, hi⟩) ≠ none →
          progs[i]? = some none) :=
  ⟨rfl, cel.compile_programs_index_aligned engW schemaObjW rulesW "" envObjW rfl⟩

namespace cel

/-- Modelled from the spec: the compile loop of the Compile variant
exercised by TestCelCompilation (src/unnamed/part_001), whose own source
is not under the sources.  For each rule in input order an empty
expression is rejected immediately with the compile error tagged
"rule is not specified", without consulting the expression engine, and
the loop continues with the remaining rules; a non-empty expression is
submitted to the engine exactly as in `compileRules`. -/
def compileRulesChecked (eng : CelEngine) (env : BuiltEnv) :
    List CelRule → List (Option Program) × List CelError
  | [] => ([], [])
  | r :: rest =>
    let acc := compileRulesChecked eng env rest
    if r.rule.length = 0 then
      (none :: acc.1, CelError.ruleNotSpecified r.message :: acc.2)
    else
      match eng.check env r.rule with
      | .issues diag =>
        (none :: acc.1, CelError.compilationFailed r.message diag :: acc.2)
      | .ast a =>
        match eng.mkProgram env a with
        | .error diag =>
          (none :: acc.1, CelError.programInstantiationFailed r.message diag :: acc.2)
        | .ok p => (some p :: acc.1, acc.2)

/-- Per-rule program of the checked loop: absent for an empty rule. -/
def checkedProgram (eng : CelEngine) (env : BuiltEnv) (r : CelRule) :
    Option Program :=
  if r.rule.length = 0 then none else ruleProgram eng env r

/-- Per-rule error of the checked loop: the empty-rule error for an empty
expression, otherwise as in the unchecked loop. -/
def checkedError (eng : CelEngine) (env : BuiltEnv) (r : CelRule) :
    Option CelError :=
  if r.rule.length = 0 then some (CelError.ruleNotSpecified r.message)
  else ruleError eng env r

theorem compileRulesChecked_eq (eng : CelEngine) (env : BuiltEnv)
    (rules : List CelRule) :
    compileRulesChecked eng env rules =
      (rules.map (checkedProgram eng env), rules.filterMap (checkedError eng env)) := by
  induction rules with
  | nil => rfl
  | cons r rest ih =>
    simp only [compileRulesChecked, ih, List.map_cons, List.filterMap_cons]
    by_cases he : r.rule.length = 0
    · simp [checkedProgram, checkedError, he]
    · cases h1 : eng.check env r.rule with
      | issues diag =>
        simp [checkedProgram, checkedError, ruleProgram, ruleError, he, h1]
      | ast a =>
        cases h2 : eng.mkProgram env a with
        | error diag =>
          simp [checkedProgram, checkedError, ruleProgram, ruleError, he, h1, h2]
        | ok p =>
          simp [checkedProgram, checkedError, ruleProgram, ruleError, he, h1, h2]

/-- C3: in the checked compile loop, a rule with empty expression text is
rejected with the error tagged "rule is not specified", regardless of the
environment (schema shape) and of the engine (nothing is submitted to it:
the outcome is the same for every engine); its program slot is the nil
sentinel; the error is collected, never silently dropped; and every other
index's outcome is determined by its own rule alone, so the empty rule
blocks no sibling. -/
theorem emptyRule_rejected (eng : CelEngine) (env : BuiltEnv)
    (rules : List CelRule) (i : Nat) (hi : i < rules.length)
    (hempty : (rules.get ⟨i, hi⟩).rule = "") :
    checkedError eng env (rules.get ⟨i, hi⟩) =
      some (CelError.ruleNotSpecified (rules.get ⟨i, hi⟩).message) ∧
    (∀ eng2 : CelEngine, checkedError eng2 env (rules.get ⟨i, hi⟩) =
      some (CelError.ruleNotSpecified (rules.get ⟨i, hi⟩).message)) ∧
    (compileRulesChecked eng env rules).1[i]? = some none ∧
    (compileRulesChecked eng env rules).2 =
      rules.filterMap (checkedError eng env) ∧
    ∀ j (hj : j < rules.length),
      (compileRulesChecked eng env rules).1[j]? =
        some (checkedProgram eng env (rules.get ⟨j, hj⟩)) := by
  have hlen : (rules.get ⟨i, hi⟩).rule.length = 0 := by rw [hempty]; rfl
  have herr : ∀ eng2 : CelEngine, checkedError eng2 env (rules.get ⟨i, hi⟩) =
      some (CelError.ruleNotSpecified (rules.get ⟨i, hi⟩).message) := by
    intro eng2
    unfold checkedError
    rw [if_pos hlen]
  have hprog : checkedProgram eng env (rules.get ⟨i, hi⟩) = none := by
    unfold checkedProgram
    rw [if_pos hlen]
  refine ⟨herr eng, herr, ?_, ?_, ?_⟩
  · rw [compileRulesChecked_eq]
    simp [List.getElem?_map, List.getElem?_eq_getElem, hi, List.get_eq_getElem,
      ← hprog]
  · rw [compileRulesChecked_eq]
  · intro j hj
    rw [compileRulesChecked_eq]
    simp [List.getElem?_map, List.getElem?_eq_getElem, hj, List.get_eq_getElem]

end cel

/-- Rules for the C3 witness: the second one is empty. -/
def rulesEmptyW : List CelRule :=
  [⟨"self > 0", "positive"⟩, ⟨"", "size of scoped field should be equal to 10"⟩]

/-- Witness for C3 at a concrete rule list whose second rule has empty
expression text, against the concrete object environment. -/
theorem emptyRule_rejected_witness :
    (rulesEmptyW.get ⟨1, by decide⟩).rule = "" ∧
    (cel.checkedError engW envObjW (rulesEmptyW.get ⟨1, by decide⟩) =
      some (CelError.ruleNotSpecified (rulesEmptyW.get ⟨1, by decide⟩).message) ∧
    (∀ eng2 : CelEngine, cel.checkedError eng2 envObjW (rulesEmptyW.get ⟨1, by decide⟩) =
      some (CelError.ruleNotSpecified (rulesEmptyW.get ⟨1, by decide⟩).message)) ∧
    (cel.compileRulesChecked engW envObjW rulesEmptyW).1[1]? = some none ∧
    (cel.compileRulesChecked engW envObjW rulesEmptyW).2 =
      rulesEmptyW.filterMap (cel.checkedError engW envObjW) ∧
    ∀ j (hj : j < rulesEmptyW.length),
      (cel.compileRulesChecked engW envObjW rulesEmptyW).1[j]? =
        some (cel.checkedProgram engW envObjW (rulesEmptyW.get ⟨j, hj⟩))) :=
  ⟨rfl, cel.emptyRule_rejected engW envObjW rulesEmptyW 1 (by decide) rfl⟩

namespace validate

/-- A value produced by a successful program evaluation: a CEL boolean,
or any non-boolean engine value (carried as an opaque tag); the Go code
compares `evalResult.Value() != true` on `interface\x7b\x7d`, which is
false exactly for the boolean true. -/
inductive CelValue where
  | boolVal (b : Bool)
  | nonBool (tag : String)
  deriving DecidableEq

/-- Outcome of `program.Eval(data)`: a non-nil runtime error carrying its
cause, or a value. -/
inductive EvalOutcome where
  | evalError (cause : String)
  | result (v : CelValue)
  deriving DecidableEq

/-- A compiled program as the evaluator consumes it: an opaque,
re-entrant executable mapping one instance to an outcome
(`cel.Program.Eval`). -/
def EvalProgram (α : Type) := α → EvalOutcome

/-- The two validation errors `Validate` emits:
`errors.ErrorExecutingValidatorRule(path, "", ruleText, cause, data)`
and `errors.FailedValidatorRule(path, "", ruleText, message, data)`
(src/unnamed/part_000 lines 105 and 109). -/
inductive ValidationError where
  | errorExecutingValidatorRule (path ruleText cause : String)
  | failedValidatorRule (path ruleText message : String)
  deriving DecidableEq

/-- Go struct `celExpressionValidator` (src/unnamed/part_000 lines
80-84): the error path, the rules and the index-aligned compiled
programs.  The instance type is a parameter, as the Go data argument is
`interface\x7b\x7d`. -/
structure celExpressionValidator (α : Type) where
  Path : String
  Rules : List CelRule
  Programs : List (EvalProgram α)

/-- The loop of `Validate` (part_000 lines 101-111), iterating the
programs with index i and fetching `c.Rules[i]`: a runtime evaluation
error appends the executing-rule error carrying the path, the rule text
and the underlying cause, then continues with the next rule; a result
other than boolean true appends the failed-rule error carrying the
path, the rule text and the rule's configured message; boolean true
appends nothing. -/
def validateLoop {α : Type} (path : String) (rules : List CelRule) (data : α) :
    List (EvalProgram α) → Nat → List ValidationError
  | [], _ => []
  | p :: ps, i =>
    let rule := rules.getD i ⟨"", ""⟩
    let rest := validateLoop path rules data ps (i + 1)
    match p data with
    | .evalError cause =>
      ValidationError.errorExecutingValidatorRule path rule.rule cause :: rest
    | .result v =>
      if v ≠ CelValue.boolVal true then
        ValidationError.failedValidatorRule path rule.rule rule.message :: rest
      else rest

/-- `celExpressionValidator.Validate` (part_000 lines 98-113), returning
the errors added to the Result in loop order. -/
def Validate {α : Type} (c : celExpressionValidator α) (data : α) :
    List ValidationError :=
  validateLoop c.Path c.Rules data c.Programs 0

/-- The outcome `Validate` produces for one rule from its evaluation
result: the executing-rule error on a runtime error, the failed-rule
error on any result other than boolean true, nothing on boolean true. -/
def ruleValidationError (path : String) (r : CelRule) (out : EvalOutcome) :
    Option ValidationError :=
  match out with
  | .evalError cause =>
    some (ValidationError.errorExecutingValidatorRule path r.rule cause)
  | .result v =>
    if v ≠ CelValue.boolVal true then
      some (ValidationError.failedValidatorRule path r.rule r.message)
    else none

theorem validateLoop_zip {α : Type} (path : String) (data : α) :
    ∀ (ps : List (EvalProgram α)) (rules : List CelRule) (i : Nat),
      rules.length = i + ps.length →
      validateLoop path rules data ps i =
        ((rules.drop i).zip ps).filterMap
          (fun pr => ruleValidationError path pr.1 (pr.2 data)) := by
  intro ps
  induction ps with
  | nil =>
    intro rules i h
    simp [validateLoop]
  | cons p ps ih =>
    intro rules i h
    simp only [List.length_cons] at h
    have hi : i < rules.length := by omega
    have hdrop : rules.drop i = rules[i] :: rules.drop (i + 1) :=
      List.drop_eq_getElem_cons hi
    have hgetD : rules.getD i ⟨"", ""⟩ = rules[i] :=
      List.getD_eq_getElem rules ⟨"", ""⟩ hi
    have hrec := ih rules (i + 1) (by omega)
    simp only [validateLoop, hgetD, hrec, hdrop, List.zip_cons_cons,
      List.filterMap_cons]
    cases hout : p data with
    | evalError cause => simp [ruleValidationError, hout]
    | result v =>
      by_cases hv : v = CelValue.boolVal true
      · simp [ruleValidationError, hout, hv]
      · simp [ruleValidationError, hout, hv]

/-- C4: for every validator whose rule and program lists are aligned and
every instance, `Validate` emits, rule by rule in order: on a runtime
evaluation error, a validation error carrying the underlying cause, the
path and the rule text, and continues with the remaining rules; on a
result of boolean false — or any non-boolean value, treated identically
— a validation error carrying the rule's configured message; on boolean
true, no error; and every one of the N rules is evaluated regardless of
earlier rules' outcomes (the output is exactly the concatenation of the
per-rule outcomes). -/
theorem validate_per_rule_outcomes {α : Type} (c : celExpressionValidator α)
    (data : α) (h : c.Rules.length = c.Programs.length) :
    Validate c data = (c.Rules.zip c.Programs).filterMap
      (fun pr => ruleValidationError c.Path pr.1 (pr.2 data)) ∧
    (∀ r cause, ruleValidationError c.Path r (EvalOutcome.evalError cause) =
      some (ValidationError.errorExecutingValidatorRule c.Path r.rule cause)) ∧
    (∀ r v, v ≠ CelValue.boolVal true →
      ruleValidationError c.Path r (EvalOutcome.result v) =
        some (ValidationError.failedValidatorRule c.Path r.rule r.message)) ∧
    ∀ r, ruleValidationError c.Path r
        (EvalOutcome.result (CelValue.boolVal true)) = none := by
  refine ⟨?_, ?_, ?_, ?_⟩
  · unfold Validate
    rw [validateLoop_zip c.Path data c.Programs c.Rules 0 (by simpa using h)]
    simp
  · intro r cause
    rfl
  · intro r v hv
    simp only [ruleValidationError]
    rw [if_pos hv]
  · intro r
    simp [ruleValidationError]

end validate

/-- A concrete validator for the C4 witness: three rules whose programs
respectively fail at runtime, evaluate to false, and evaluate to true. -/
def valW : validate.celExpressionValidator Nat :=
  ⟨"spec.replicas",
   [⟨"r1", "m1"⟩, ⟨"r2", "m2"⟩, ⟨"r3", "m3"⟩],
   [fun _ => .evalError "no such key", fun _ => .result (.boolVal false),
    fun _ => .result (.boolVal true)]⟩

/-- Witness for C4 at the concrete three-rule validator. -/
theorem validate_per_rule_outcomes_witness :
    valW.Rules.length = valW.Programs.length ∧
    (validate.Validate valW 0 = (valW.Rules.zip valW.Programs).filterMap
      (fun pr => validate.ruleValidationError valW.Path pr.1 (pr.2 0)) ∧
    (∀ r cause, validate.ruleValidationError valW.Path r
        (validate.EvalOutcome.evalError cause) =
      some (validate.ValidationError.errorExecutingValidatorRule
        valW.Path r.rule cause)) ∧
    (∀ r v, v ≠ validate.CelValue.boolVal true →
      validate.ruleValidationError valW.Path r (validate.EvalOutcome.result v) =
        some (validate.ValidationError.failedValidatorRule
          valW.Path r.rule r.message)) ∧
    ∀ r, validate.ruleValidationError valW.Path r
        (validate.EvalOutcome.result (validate.CelValue.boolVal true)) = none) :=
  ⟨rfl, validate.validate_per_rule_outcomes valW 0 rfl⟩

namespace validate

/-- The body of `SetPath` as written (src/unnamed/part_000 lines 86-88):
it assigns the argument to the Path field of its receiver.  The receiver
is a VALUE receiver (`func (c celExpressionValidator) SetPath(...)`), so
this result is the method's local copy of the validator. -/
def SetPath {α : Type} (c : celExpressionValidator α) (path : String) :
    celExpressionValidator α :=
  { c with Path := path }

/-- Go method-call semantics for a value receiver: the receiver is passed
by value, the body runs on the copy (`SetPath c path`), and the copy is
discarded; the caller's validator after the call is the original value. -/
def callSetPath {α : Type} (c : celExpressionValidator α) (path : String) :
    celExpressionValidator α :=
  let _ := SetPath c path
  c

/-- C10: calling `SetPath` never changes the path that subsequent
`Validate` calls attribute errors to: the method body does set the Path
of its copy, but because the receiver is a value receiver the caller's
validator keeps its Path, Rules and Programs unchanged, and `Validate`
behaves identically after the call. -/
theorem setPath_has_no_effect {α : Type} (c : celExpressionValidator α)
    (path : String) (data : α) :
    (SetPath c path).Path = path ∧
    (callSetPath c path).Path = c.Path ∧
    (callSetPath c path).Rules = c.Rules ∧
    (callSetPath c path).Programs = c.Programs ∧
    Validate (callSetPath c path) data = Validate c data :=
  ⟨rfl, rfl, rfl, rfl, rfl⟩

end validate

/-- The setup oracle `newCelExpressionValidator` consumes: the error
outcomes of the external `rt.EnvOptions` and `env.Extend` calls, the
per-expression outcome of `env.Compile`, and the outcome of
`env.Program` (producing an evaluable program). -/
structure CelSetup (α : Type) where
  envOptionsErr : Option String
  extendErr : Option String
  check : String → CompileResult
  mkProgram : Ast → Except String (validate.EvalProgram α)

/-- The result of a Go function that may panic instead of returning:
`panicked` carries the panic message. -/
inductive PanicOr (β : Type) where
  | panicked (msg : String)
  | ok (val : β)

namespace validate

/-- The compile loop of `newCelExpressionValidator` (src/unnamed/part_000
lines 64-76): unlike `Compile`, it PANICS on the first rule whose
compilation or program instantiation fails
(`panic(fmt.Errorf("compilation failed: %v", issues))`,
`panic(fmt.Errorf("program instantiation failed: %v", err))`). -/
def newCelLoop {α : Type} (setup : CelSetup α) :
    List CelRule → PanicOr (List (EvalProgram α))
  | [] => .ok []
  | r :: rest =>
    match setup.check r.rule with
    | .issues diag => .panicked ("compilation failed: " ++ diag)
    | .ast a =>
      match setup.mkProgram a with
      | .error e => .panicked ("program instantiation failed: " ++ e)
      | .ok p =>
        match newCelLoop setup rest with
        | .panicked e => .panicked e
        | .ok ps => .ok (p :: ps)

/-- `newCelExpressionValidator` (src/unnamed/part_000 lines 37-78): build
the rule types for the schema (`celmodel.NewRuleTypes`, which fails
exactly when the schema is unmappable — `panic(err)`), obtain the engine
options (`panic(err)` on failure), extend the environment (`panic(err)`
on failure), then compile every rule, panicking on the first failure;
only when nothing failed is the validator value returned. -/
def newCelExpressionValidator {α : Type} (setup : CelSetup α) (path : String)
    (schema : Schema) (rules : List CelRule) :
    PanicOr (celExpressionValidator α) :=
  match SchemaDeclType schema with
  | none => .panicked "NewRuleTypes: unsupported schema"
  | some _ =>
    match setup.envOptionsErr with
    | some e => .panicked e
    | none =>
      match setup.extendErr with
      | some e => .panicked e
      | none =>
        match newCelLoop setup rules with
        | .panicked e => .panicked e
        | .ok progs => .ok ⟨path, rules, progs⟩

end validate

/-- Setup oracle for the C5 failing input: the external calls succeed but
the expression "bad" fails the engine type check. -/
def setupBadW : CelSetup Nat :=
  ⟨none, none,
   fun s => if s = "bad" then CompileResult.issues "undeclared reference"
            else CompileResult.ast ⟨s⟩,
   fun _ => Except.ok (fun _ => .result (.boolVal true))⟩

/-- C5 failing input, evaluated: on a well-formed object schema and a
single rule whose expression fails to compile, `newCelExpressionValidator`
panics instead of returning the failure as a structured error value —
contradicting the policy that no failure path of setup or rule
compilation terminates the process. -/
theorem newCelExpressionValidator_panics_on_compile_failure :
    validate.newCelExpressionValidator setupBadW "spec" schemaObjW
      [⟨"bad", "m"⟩] =
      PanicOr.panicked "compilation failed: undeclared reference" := rfl

namespace cel

/-- Resolution of a variable name in a built environment: the first
declaration with that name, as the engine type checker would find it. -/
def lookupVar (env : BuiltEnv) (name : String) : Option DeclType :=
  (env.vars.find? (fun p => p.1 == name)).map (fun p => p.2)

/-- An unqualified reference `f` resolves when the environment declares a
variable named f. -/
def resolvesUnqualified (env : BuiltEnv) (f : String) : Bool :=
  (lookupVar env f).isSome

/-- A qualified reference `v.f` resolves when the environment declares v
at an object type having a field named f. -/
def resolvesQualified (env : BuiltEnv) (v f : String) : Bool :=
  match lookupVar env v with
  | some (DeclType.object fs) => fs.any (fun p => p.1 == f)
  | _ => false

theorem find?_fst_isSome_of_mem {β : Type} {l : List (String × β)}
    {f : String} {t : β} (h : (f, t) ∈ l) :
    (l.find? (fun p => p.1 == f)).isSome = true := by
  induction l with
  | nil => cases h
  | cons x xs ih =>
    cases h with
    | head => simp [List.find?_cons]
    | tail _ hmem =>
      rw [List.find?_cons]
      cases hx : (x.1 == f) with
      | true => simp
      | false => simpa using ih hmem

/-- C7: for a root schema of one of the four scalar kinds (its type list
is exactly that kind, any format — in particular a byte-formatted string
stays the textual scalar), the environment `Compile` assembles declares
only the scope variable, typed at the matching engine scalar given by
`scalarExprType` (string to text, integer to 64-bit signed int, boolean
to bool, number to double), with no field-level variables, and installs
the fixed string-manipulation and encoder extension libraries. -/
theorem scalar_root_env (eng : CelEngine) (schema : Schema)
    (rootName : String) (k : String) (ty : DeclType)
    (hk : scalarExprType k = some ty)
    (hty : schema.type = [k])
    (hne : eng.newEnvErr = none) :
    compileEnv eng schema rootName =
      Except.ok ⟨[(defaultedName rootName, ty)], true, true⟩ := by
  have hguard : usesScalarBranch schema = true := by
    unfold usesScalarBranch
    rw [hty]
    unfold scalarExprType at hk
    split_ifs at hk with h1 h2 h3 h4
    · subst h1; decide
    · subst h2; decide
    · subst h3; decide
    · subst h4; decide
  unfold compileEnv compileEnvNamed
  simp [hguard, hty, hk, hne]

end cel

/-- A byte-formatted string schema, for the C7 witness. -/
def schemaByteW : Schema := .mk ["string"] "byte" [] none none

/-- Witness for C7: for the byte-formatted string root the assembled
environment declares only "self" at the engine text scalar, with the two
extension libraries installed. -/
theorem scalar_root_env_witness :
    cel.scalarExprType "string" = some DeclType.string ∧
    schemaByteW.type = ["string"] ∧
    engW.newEnvErr = none ∧
    cel.compileEnv engW schemaByteW "" =
      Except.ok ⟨[(cel.defaultedName "", DeclType.string)], true, true⟩ :=
  ⟨rfl, rfl, rfl, cel.scalar_root_env engW schemaByteW "" "string"
    DeclType.string rfl rfl rfl⟩

namespace cel

/-- C6: for a root schema taken through the object branch whose built
declaration is of object or map kind, the environment `Compile`
assembles ("self" by default or passed explicitly) binds "self" to the
whole scoped declaration and declares every direct field as its own
top-level typed variable, so that for every declared field f both the
unqualified reference f and the qualified reference self.f resolve
during rule compilation (a map declaration contributes no field names,
so its field clause holds vacuously while "self" is still bound). -/
theorem objectOrMap_root_env (eng : CelEngine) (schema : Schema)
    (rootName : String) (root : DeclType) (env : BuiltEnv)
    (hname : rootName = "" ∨ rootName = "self")
    (hns : usesScalarBranch schema = false)
    (hdecl : SchemaDeclType schema = some root)
    (hkind : root.isObject = true ∨ root.isMap = true)
    (henv : compileEnv eng schema rootName = Except.ok env) :
    lookupVar env "self" = some root ∧
    ∀ f t, (f, t) ∈ root.fields →
      resolvesUnqualified env f = true ∧
      resolvesQualified env "self" f = true := by
  have hdef : defaultedName rootName = "self" := by
    cases hname with
    | inl h => rw [h]; rfl
    | inr h => rw [h]; rfl
  have hbr : (root.isObject || root.isMap) = true := by
    cases hkind with
    | inl h => simp [h]
    | inr h => simp [h]
  cases heo : eng.envOptionsErr with
  | some e =>
    exfalso
    unfold compileEnv compileEnvNamed at henv
    rw [hdef] at henv
    simp [hns, hdecl, heo] at henv
  | none =>
    cases hex : eng.extendErr with
    | some e =>
      exfalso
      unfold compileEnv compileEnvNamed at henv
      rw [hdef] at henv
      simp [hns, hdecl, heo, hbr, extendEnv, hex] at henv
    | none =>
      have hcomp : compileEnv eng schema rootName =
          Except.ok ⟨("self", root) :: root.fields, false, false⟩ := by
        unfold compileEnv compileEnvNamed
        rw [hdef]
        simp [hns, hdecl, heo, hbr, extendEnv, hex]
      rw [hcomp] at henv
      injection henv with henv2
      subst henv2
      refine ⟨?_, ?_⟩
      · simp [lookupVar, List.find?_cons]
      · intro f t hmem
        constructor
        · unfold resolvesUnqualified lookupVar
          have : (f, t) ∈ ("self", root) :: root.fields :=
            List.mem_cons_of_mem _ hmem
          simp [find?_fst_isSome_of_mem this]
        · unfold resolvesQualified
          have hself : lookupVar ⟨("self", root) :: root.fields, false, false⟩
              "self" = some root := by
            simp [lookupVar, List.find?_cons]
          rw [hself]
          cases root with
          | object fs =>
            simp only [DeclType.fields] at hmem
            exact List.any_eq_true.mpr ⟨(f, t), hmem, by simp⟩
          | map e => simp [DeclType.fields] at hmem
          | string => simp [DeclType.isObject, DeclType.isMap] at hbr
          | int => simp [DeclType.isObject, DeclType.isMap] at hbr
          | bool => simp [DeclType.isObject, DeclType.isMap] at hbr
          | double => simp [DeclType.isObject, DeclType.isMap] at hbr
          | list e => simp [DeclType.isObject, DeclType.isMap] at hbr

end cel

/-- Witness for C6 at the concrete minReplicas/maxReplicas object schema
with the empty (defaulted) scope name. -/
theorem objectOrMap_root_env_witness :
    ("" = "" ∨ "" = "self") ∧
    cel.usesScalarBranch schemaObjW = false ∧
    SchemaDeclType schemaObjW = some rootObjW ∧
    (rootObjW.isObject = true ∨ rootObjW.isMap = true) ∧
    cel.compileEnv engW schemaObjW "" = Except.ok envObjW ∧
    (cel.lookupVar envObjW "self" = some rootObjW ∧
    ∀ f t, (f, t) ∈ rootObjW.fields →
      cel.resolvesUnqualified envObjW f = true ∧
      cel.resolvesQualified envObjW "self" f = true) :=
  ⟨Or.inl rfl, rfl, rfl, Or.inl rfl, rfl,
    cel.objectOrMap_root_env engW schemaObjW "" rootObjW envObjW
      (Or.inl rfl) rfl rfl (Or.inl rfl) rfl⟩

namespace cel

/-- C8: a bare list at the root takes the empty `IsList` branch of the
object/map path of `Compile`: no field-level variables are declared
(only the scope variable is bound), yet the unsupported-type declaration
error is NOT reported — environment assembly succeeds, so the rule
compile loop remains reachable.  A list nested inside an object root is
likewise always reachable: the enclosing object's field of list type is
declared as a variable in a successfully assembled environment. -/
theorem bare_list_root (eng : CelEngine) (schema : Schema)
    (rootName : String) (root : DeclType)
    (hns : usesScalarBranch schema = false)
    (hdecl : SchemaDeclType schema = some root)
    (heo : eng.envOptionsErr = none)
    (hex : eng.extendErr = none) :
    (root.isList = true →
      compileEnv eng schema rootName =
        Except.ok ⟨[(defaultedName rootName, root)], false, false⟩) ∧
    ∀ fs f t, root = DeclType.object fs → (f, t) ∈ fs → t.isList = true →
      compileEnv eng schema rootName =
        Except.ok ⟨(defaultedName rootName, root) :: fs, false, false⟩ ∧
      (f, t) ∈ ((defaultedName rootName, root) :: fs) := by
  constructor
  · intro hlist
    cases root with
    | list e =>
      unfold compileEnv compileEnvNamed
      simp [hns, hdecl, heo, extendEnv, hex, DeclType.isObject, DeclType.isMap,
        DeclType.isList]
    | object fs => simp [DeclType.isList] at hlist
    | map e => simp [DeclType.isList] at hlist
    | string => simp [DeclType.isList] at hlist
    | int => simp [DeclType.isList] at hlist
    | bool => simp [DeclType.isList] at hlist
    | double => simp [DeclType.isList] at hlist
  · intro fs f t hroot hmem _
    subst hroot
    constructor
    · unfold compileEnv compileEnvNamed
      simp [hns, hdecl, heo, extendEnv, hex, DeclType.isObject, DeclType.fields]
    · exact List.mem_cons_of_mem _ hmem

end cel

/-- A bare list-of-string root schema, for the C8 witness. -/
def schemaListW : Schema :=
  .mk ["array"] "" [] (some (.mk ["string"] "" [] none none)) none

/-- An object root with a single list-typed field, for the nested half of
the C8 witness. -/
def schemaNestedListW : Schema :=
  .mk ["object"] "" [("nestedObj", schemaListW)] none none

/-- Witness for C8: the bare list root compiles through the empty list
branch with only the scope variable; the object root with a list field
compiles with the field declared. -/
theorem bare_list_root_witness :
    (cel.usesScalarBranch schemaListW = false ∧
      SchemaDeclType schemaListW = some (DeclType.list DeclType.string) ∧
      (DeclType.list DeclType.string).isList = true ∧
      cel.compileEnv engW schemaListW "" =
        Except.ok ⟨[(cel.defaultedName "", DeclType.list DeclType.string)],
          false, false⟩) ∧
    cel.usesScalarBranch schemaNestedListW = false ∧
    SchemaDeclType schemaNestedListW =
      some (DeclType.object [("nestedObj", DeclType.list DeclType.string)]) ∧
    cel.compileEnv engW schemaNestedListW "" =
      Except.ok ⟨(cel.defaultedName "",
          DeclType.object [("nestedObj", DeclType.list DeclType.string)]) ::
          [("nestedObj", DeclType.list DeclType.string)], false, false⟩ ∧
    ("nestedObj", DeclType.list DeclType.string) ∈
      ((cel.defaultedName "",
          DeclType.object [("nestedObj", DeclType.list DeclType.string)]) ::
          [("nestedObj", DeclType.list DeclType.string)]) :=
  ⟨⟨rfl, rfl, rfl,
    (cel.bare_list_root engW schemaListW "" (DeclType.list DeclType.string)
      rfl rfl rfl rfl).1 rfl⟩,
   rfl, rfl,
    (cel.bare_list_root engW schemaNestedListW ""
      (DeclType.object [("nestedObj", DeclType.list DeclType.string)])
      rfl rfl rfl rfl).2
      [("nestedObj", DeclType.list DeclType.string)]
      "nestedObj" (DeclType.list DeclType.string) rfl
      (List.mem_singleton.mpr rfl) rfl⟩

namespace validate

/-- The environment-assembly phase of `CompileCel` (src/unnamed/part_000
lines 151-182): an EMPTY scope-variable name defaults to "__root__"
(line 153), not "self"; the scope variable itself is contributed by the
(spec-modelled) `rt.EnvOptions`; only an object root contributes field
variables (this variant has no map or list test and no unsupported-type
error); `env.Extend` may fail. -/
def compileCelEnv (eng : CelEngine) (schema : Schema) (rootName0 : String) :
    Except CelError BuiltEnv :=
  let rootName := if rootName0.length = 0 then "__root__" else rootName0
  match SchemaDeclType schema with
  | none => Except.error (CelError.ruleTypesError "unsupported schema")
  | some root =>
    match eng.envOptionsErr with
    | some e => Except.error (CelError.envOptionsError e)
    | none =>
      if root.isObject then cel.extendEnv eng ((rootName, root) :: root.fields)
      else cel.extendEnv eng [(rootName, root)]

/-- `CompileCel` (src/unnamed/part_000 lines 151-200): assemble the
environment with the "__root__" default, then run the same compile loop
as `Compile`. -/
def CompileCel (eng : CelEngine) (schema : Schema) (celRules : List CelRule)
    (rootName : String) : Option (List (Option Program)) × List CelError :=
  match compileCelEnv eng schema rootName with
  | .error e => (none, [e])
  | .ok env =>
    let res := cel.compileRules eng env celRules
    (some res.1, res.2)

end validate

/-- The environment `CompileCel` assembles for `schemaObjW` when the
caller passes the empty scope name. -/
def envRootW : BuiltEnv :=
  ⟨[("__root__", rootObjW), ("minReplicas", DeclType.int),
    ("maxReplicas", DeclType.int)], false, false⟩

/-- C9 counterexample: with the empty scope-variable name, `CompileCel`
(one of the claim's cited sources) binds the scoped value to the name
"__root__", not "self": in the environment it builds for the concrete
minReplicas/maxReplicas object, "__root__" is declared and "self" does
not resolve, so a rule referring to "self" does not compile identically
to an explicit-"self" call. -/
theorem compileCel_empty_name_not_self :
    validate.compileCelEnv engW schemaObjW "" = Except.ok envRootW ∧
    cel.lookupVar envRootW "__root__" = some rootObjW ∧
    cel.lookupVar envRootW "self" = none :=
  ⟨rfl, rfl, rfl⟩

/-- C9 amended: in `Compile` (src/pkg/util/cel/cel_compilation.go) the
empty scope-variable name does default to "self": for every engine,
schema and rule list, compiling with the empty name and with the
explicit name "self" return identical results.  The `CompileCel` variant
(src/unnamed/part_000) instead defaults the empty name to "__root__". -/
theorem compile_empty_name_defaults_to_self (eng : CelEngine)
    (schema : Schema) (rules : List CelRule) :
    cel.Compile eng schema rules "" = cel.Compile eng schema rules "self" := rfl
